import Mathlib

/-!
Verification development for `DownstreamPoints_v03.py`, a downstream
pour-point locator over a Strahler-ordered stream network.

The script is shallowly embedded: attribute tables become lists of records,
arcpy selections become list filters, the attribute dictionary built by a
search cursor becomes the last row of the selection (the cursor overwrites
every field on each row), and the unbounded `while` loop of the downstream
trace becomes a fuel-indexed recursion.  Uncaught Python exceptions
(KeyError on an empty dictionary, IndexError on an empty selection, unbound
coordinate variables) are modelled by explicit `crash` outcomes.
-/

/-- Planar coordinate pair, the (X, Y) read from a geometry point. -/
structure Point where
  x : Int
  y : Int
deriving DecidableEq

/-- One record of the stream network attribute table, carrying exactly the
fields the script reads: `OBJECTID`, `StrahlerOr`, `FROM_NODE`, `TO_NODE`,
`Shape_Length`, and the geometry data `SHAPE@.firstPoint`.  The field
`lastPoint` is the downstream end of the line geometry; the script never
reads it (v03 deliberately drops the point at the segment start instead). -/
structure StreamSegment where
  objectid : Nat
  strahlerOr : Int
  fromNode : Nat
  toNode : Nat
  shapeLength : Int
  firstPoint : Point
  lastPoint : Point
deriving DecidableEq

/-- One record of the sites attribute table: `OBJECTID` and the `Sites`
text label used to name the output row. -/
structure Site where
  objectid : Nat
  label : String
deriving DecidableEq

/-- A feature layer over the sites table: the layer's (randomly generated)
name together with the rows selected by its definition query. -/
structure SiteLayer where
  lyr : String
  rows : List Site
deriving DecidableEq

/-- A feature layer over the stream network: the layer's (randomly
generated) name together with the underlying feature class rows.  The
selections placed on the layer by `SelectLayerBy...` calls are threaded
through the trace as explicit values. -/
structure StreamLayer where
  lyr : String
  src : List StreamSegment
deriving DecidableEq

/-- The required fields checked by `ValidateInputStreams`. -/
def req_fields : List String := ["OBJECTID", "StrahlerOr", "FROM_NODE", "TO_NODE"]

/-- Mirrors `ValidateInputStreams`: tests whether the required fields are a
subset of the stream feature class's field list, returning True/False. -/
def ValidateInputStreams (fields : List String) : Bool :=
  req_fields.all (fun f => fields.contains f)

/-- Mirrors `DictionaryOfLayerFeatures`: the cursor iterates every row of
the layer and overwrites each field of the dictionary on every row, so the
resulting dictionary holds the attributes of the last row; an empty layer
yields an empty dictionary, so any later field access raises (modelled by
`none`). -/
def DictionaryOfLayerFeatures (rows : List StreamSegment) : Option StreamSegment :=
  rows.getLast?

/-- Mirrors `SelectLayerByAttribute` with the query `FROM_NODE = node`:
a new selection holding every stream row whose from-node equals `node`. -/
def selectByFromNode (net : List StreamSegment) (node : Nat) : List StreamSegment :=
  net.filter (fun seg => seg.fromNode == node)

/-- Mirrors `SelectLayerByAttribute` with the query `OBJECTID = oid`:
a new selection holding every stream row with that object id. -/
def selectByObjectId (net : List StreamSegment) (oid : Nat) : List StreamSegment :=
  net.filter (fun seg => seg.objectid == oid)

/-- One successor lookup of the trace: select the rows whose `FROM_NODE`
equals the current segment's `TO_NODE` and build their attribute
dictionary (which keeps the last selected row). -/
def stepSeg (net : List StreamSegment) (start : StreamSegment) : Option StreamSegment :=
  DictionaryOfLayerFeatures (selectByFromNode net start.toNode)

/-- Error kinds distinguished by the `arcpy.AddError` message printed just
before `FindDownstreamPoint` returns False. -/
inductive TraceErr where
  | ambiguousOrMissing
  | orderInversion
deriving DecidableEq

/-- Outcome of `FindDownstreamPoint`: the returned coordinate pair together
with the diagnostic cumulative length printed as "Total distance"; or the
False return after an `AddError`; or an uncaught exception; or exhaustion
of the model's fuel (the source `while` loop has no step bound). -/
inductive FDPResult where
  | ok (c : Point) (len : Int)
  | fail (e : TraceErr)
  | crash
  | outOfFuel
deriving DecidableEq

/-- Mirrors the `while StrOr_current == StrOr_initial` loop of
`FindDownstreamPoint` ("Swimming downstream...").  `start` is the current
segment dictionary, `visited` the `downstream_segments` id list, `len` the
running `downstream_length`.  Each pass selects the rows downstream of the
current segment; an empty selection raises KeyError (`crash`).  A
same-order successor is appended and the loop continues; a higher-order
successor triggers the v03 backtrack (re-select `downstream_segments[-1]`
by OBJECTID and return the first point of the last row of that selection);
a lower-order successor prints an error and returns False. -/
def swim (net : List StreamSegment) (initOrd : Int) :
    Nat → StreamSegment → List Nat → Int → FDPResult
  | 0, _, _, _ => FDPResult.outOfFuel
  | fuel + 1, start, visited, len =>
    match stepSeg net start with
    | none => FDPResult.crash
    | some downstream =>
      if downstream.strahlerOr = initOrd then
        swim net initOrd fuel downstream (visited ++ [downstream.objectid])
          (len + downstream.shapeLength)
      else if downstream.strahlerOr > initOrd then
        match visited.getLast? with
        | none => FDPResult.crash
        | some lastId =>
          match (selectByObjectId net lastId).getLast? with
          | none => FDPResult.crash
          | some seg => FDPResult.ok seg.firstPoint len
      else FDPResult.fail TraceErr.orderInversion

/-- Mirrors `FindDownstreamPoint`: select the stream rows intersecting the
tolerance buffer around the site (the spatial test is the abstract
predicate `intersects`); if exactly one row is selected, make the layer
"start" from the selection, build its dictionary, and swim downstream from
it; otherwise print "Could not find closest stream." and return False. -/
def FindDownstreamPoint (intersects : Int → Site → StreamSegment → Bool)
    (site_lyr : SiteLayer) (stream_lyr : StreamLayer) (tolerance : Int)
    (fuel : Nat) : FDPResult :=
  let sel := stream_lyr.src.filter
    (fun seg => site_lyr.rows.any (fun t => intersects tolerance t seg))
  if sel.length = 1 then
    let start_segment : StreamLayer := ⟨"start", sel⟩
    match DictionaryOfLayerFeatures start_segment.src with
    | none => FDPResult.crash
    | some start =>
      swim stream_lyr.src start.strahlerOr fuel start [start.objectid] 0
  else
    FDPResult.fail TraceErr.ambiguousOrMissing

/-- One row of the output point feature class: the `SHAPE@XY` value passed
to `insertRow` (`none` models the Python value False that `Main` passes
through when `FindDownstreamPoint` failed) and the `Site` label. -/
structure Row where
  geom : Option Point
  site : String
deriving DecidableEq

/-- Outcome of a whole run of `Main`: validation failure before the output
feature class is created; normal completion; the False return at the
site-selection count check; an uncaught exception mid-run; or fuel
exhaustion (model artifact).  Every constructor except `noOutput` carries
the rows of the created output feature class. -/
inductive RunResult where
  | noOutput
  | completed (rows : List Row)
  | abortedSite (rows : List Row)
  | crashed (rows : List Row)
  | fuelOut (rows : List Row)
deriving DecidableEq

/-- Mirrors the label normalisation applied to the `Sites` field value:
`str(...).replace(" ", "_")`.  Replacing a one-character pattern is the
same as mapping over the characters of the string. -/
def sanitize (s : String) : String :=
  String.mk (s.data.map (fun ch => if ch = ' ' then '_' else ch))

/-- Mirrors the `for s in site_list` loop of `Main`: make a per-site layer
named by a fresh random string and filtered by `OBJECTID = s`, read the
first row's `Sites` label (IndexError, hence `crash`, if the selection is
empty), check the selection count (returning False aborts the run), run
`FindDownstreamPoint`, and insert whatever it returned, together with the
label, as a row of the output feature class. -/
def MainLoop (intersects : Int → Site → StreamSegment → Bool) (sites : List Site)
    (stream_lyr : StreamLayer) (tolerance : Int) (fuel : Nat)
    (names : Nat → String) :
    List Nat → Nat → List Row → RunResult
  | [], _, rows => RunResult.completed rows
  | s :: rest, i, rows =>
    let site_lyr : SiteLayer := ⟨names i, sites.filter (fun t => t.objectid == s)⟩
    match site_lyr.rows.head? with
    | none => RunResult.crashed rows
    | some t0 =>
      let point_name := sanitize t0.label
      if site_lyr.rows.length = 1 then
        match FindDownstreamPoint intersects site_lyr stream_lyr tolerance fuel with
        | FDPResult.ok c _ =>
          MainLoop intersects sites stream_lyr tolerance fuel names rest (i + 1)
            (rows ++ [⟨some c, point_name⟩])
        | FDPResult.fail _ =>
          MainLoop intersects sites stream_lyr tolerance fuel names rest (i + 1)
            (rows ++ [⟨none, point_name⟩])
        | FDPResult.crash => RunResult.crashed rows
        | FDPResult.outOfFuel => RunResult.fuelOut rows
      else RunResult.abortedSite rows

/-- Mirrors `Main`: validate the stream schema (returning False before any
output is created when it fails), make the stream layer under a random
7-character name, enumerate the site OBJECTIDs, and process each site in
order.  `names` supplies the randomly generated layer names: `names 0` for
the stream layer, `names (i + 1)` for the i-th site layer. -/
def Main (intersects : Int → Site → StreamSegment → Bool) (fields : List String)
    (sites : List Site) (streams : List StreamSegment) (tolerance : Int)
    (fuel : Nat) (names : Nat → String) : RunResult :=
  if ValidateInputStreams fields then
    let stream_lyr : StreamLayer := ⟨names 0, streams⟩
    let site_list := sites.map (fun t => t.objectid)
    MainLoop intersects sites stream_lyr tolerance fuel names site_list 1 []
  else
    RunResult.noOutput

/-- Rows held by the output feature class at the end of a run (empty when
the run aborted before the class was created). -/
def rowsOf : RunResult → List Row
  | RunResult.noOutput => []
  | RunResult.completed rows => rows
  | RunResult.abortedSite rows => rows
  | RunResult.crashed rows => rows
  | RunResult.fuelOut rows => rows

/-- Uniqueness of `OBJECTID` over the stream network, an ArcGIS invariant
of any feature class. -/
def uniqueIds (net : List StreamSegment) : Prop :=
  (net.map (fun seg => seg.objectid)).Nodup

/-- The final segment of a traced chain: the last element of `ss`, or the
starting segment `cur` when no continuing hop happened. -/
def lastSeg : StreamSegment → List StreamSegment → StreamSegment
  | cur, [] => cur
  | _, nxt :: rest => lastSeg nxt rest

/-- Sum of the lengths of a list of segments. -/
def sumLen (ss : List StreamSegment) : Int :=
  (ss.map (fun seg => seg.shapeLength)).sum

/-- A downstream chain of continuing hops: each element is the successor
the trace's lookup resolves from the previous one, with unchanged Strahler
order. -/
def chainFrom (net : List StreamSegment) : StreamSegment → List StreamSegment → Prop
  | _, [] => True
  | cur, nxt :: rest =>
    stepSeg net cur = some nxt ∧ nxt.strahlerOr = cur.strahlerOr ∧
      chainFrom net nxt rest


/-- Fixture points for the concrete networks below. -/
def pt1 : Point := ⟨10, 1⟩

/-- Fixture point. -/
def pt2 : Point := ⟨20, 2⟩

/-- Fixture point. -/
def pt3 : Point := ⟨30, 3⟩

/-- Fixture point. -/
def pt4 : Point := ⟨40, 4⟩

/-- Fixture point. -/
def pt5 : Point := ⟨50, 5⟩

/-- Fixture: first segment of the 4-segment chain with orders
[2, 2, 2, 3] and lengths [10, 20, 30, 5]. -/
def seg41 : StreamSegment := ⟨1, 2, 0, 1, 10, pt1, pt2⟩

/-- Fixture: second chain segment (order 2, length 20). -/
def seg42 : StreamSegment := ⟨2, 2, 1, 2, 20, pt2, pt3⟩

/-- Fixture: third chain segment (order 2, length 30). -/
def seg43 : StreamSegment := ⟨3, 2, 2, 3, 30, pt3, pt4⟩

/-- Fixture: boundary segment of the chain (order 3, length 5). -/
def seg44 : StreamSegment := ⟨4, 3, 3, 4, 5, pt4, pt5⟩

/-- Fixture: the 4-segment chain network. -/
def net4 : List StreamSegment := [seg41, seg42, seg43, seg44]

/-- Fixture: spatial predicate whose buffer hits exactly the segment with
OBJECTID 1. -/
def interFirst : Int → Site → StreamSegment → Bool :=
  fun _ _ seg => seg.objectid == 1

/-- Fixture: spatial predicate hitting no segment at all. -/
def interNone : Int → Site → StreamSegment → Bool :=
  fun _ _ _ => false

/-- Fixture: spatial predicate hitting every segment. -/
def interAll : Int → Site → StreamSegment → Bool :=
  fun _ _ _ => true

/-- Fixture site whose label contains a space. -/
def site1 : Site := ⟨1, "s one"⟩

/-- Fixture site layer holding `site1`. -/
def siteL1 : SiteLayer := ⟨"AAAA", [site1]⟩

/-- Fixture stream layer over `net4`. -/
def streamL4 : StreamLayer := ⟨"BBBB", net4⟩

/-- Fixture: 2-segment chain with orders [2, 1] — an order inversion. -/
def net3 : List StreamSegment :=
  [⟨1, 2, 0, 1, 10, pt1, pt2⟩, ⟨2, 1, 1, 2, 20, pt2, pt3⟩]

/-- Fixture stream layer over `net3`. -/
def streamL3 : StreamLayer := ⟨"BBBB", net3⟩

/-- Fixture: a field list satisfying the schema check. -/
def goodFields : List String :=
  ["OBJECTID", "Shape", "StrahlerOr", "FROM_NODE", "TO_NODE", "Shape_Length"]

/-- Fixture: a field list missing the Strahler order field. -/
def badFields : List String := ["OBJECTID", "Shape", "FROM_NODE", "TO_NODE"]

/-- Fixture: a constant layer-name supply. -/
def nm : Nat → String := fun _ => "QQQQ"

/-- Fixture: starting segment shared by the confluence networks. -/
def segA5 : StreamSegment := ⟨1, 2, 0, 1, 10, pt1, pt2⟩

/-- Fixture: node 1 has two downstream segments (rows 2 and 3); the later
row has strictly higher order. -/
def net5 : List StreamSegment :=
  [segA5, ⟨2, 2, 1, 5, 20, pt2, pt3⟩, ⟨3, 3, 1, 6, 7, pt3, pt4⟩]

/-- Fixture: the later of two same-order successors of node 1. -/
def segC5 : StreamSegment := ⟨3, 2, 1, 6, 7, pt3, pt4⟩

/-- Fixture: node 1 has two same-order downstream segments. -/
def net5b : List StreamSegment :=
  [segA5, ⟨2, 2, 1, 5, 20, pt2, pt3⟩, segC5]

/-- Fixture: a segment whose to-node has no downstream segment. -/
def segA6 : StreamSegment := ⟨1, 2, 0, 1, 10, pt1, pt2⟩

/-- Fixture: one-segment dead-end network. -/
def net6 : List StreamSegment := [segA6]

/-- Fixture stream layer over `net6`. -/
def streamL6 : StreamLayer := ⟨"BBBB", net6⟩

/-- Fixture: a one-segment same-order cycle (its from-node equals its
to-node). -/
def segA9 : StreamSegment := ⟨1, 2, 0, 0, 10, pt1, pt2⟩

/-- Fixture: the cyclic network. -/
def net9 : List StreamSegment := [segA9]

/-- Fixture: starting segment of the chain with orders [2, 3]. -/
def segA8 : StreamSegment := ⟨1, 2, 0, 1, 10, pt1, pt2⟩

/-- Fixture: immediately higher-order successor (order 3). -/
def segB8 : StreamSegment := ⟨2, 3, 1, 2, 20, pt2, pt3⟩

/-- Fixture: 2-segment network whose very first hop meets a higher order. -/
def net8 : List StreamSegment := [segA8, segB8]

/-- Fixture stream layer over `net8`. -/
def streamL8 : StreamLayer := ⟨"BBBB", net8⟩

/-- The last row delivered by a search cursor is one of the layer's rows. -/
theorem mem_of_getLast_eq {α : Type} {l : List α} {a : α}
    (h : l.getLast? = some a) : a ∈ l := by
  induction l with
  | nil => simp [List.getLast?] at h
  | cons b t ih =>
    cases t with
    | nil =>
      simp [List.getLast?] at h
      simp [h]
    | cons c u =>
      rw [List.getLast?_cons_cons] at h
      exact List.mem_cons_of_mem _ (ih h)

/-- A successor resolved by the trace's lookup is a row of the network. -/
theorem stepSeg_mem {net : List StreamSegment} {cur t : StreamSegment}
    (h : stepSeg net cur = some t) : t ∈ net := by
  have h2 : (selectByFromNode net cur.toNode).getLast? = some t := h
  exact List.mem_of_mem_filter (mem_of_getLast_eq h2)

/-- Under unique object ids, selecting a member segment by its own id
selects exactly that segment. -/
theorem selectByObjectId_eq {net : List StreamSegment} {cur : StreamSegment}
    (hu : uniqueIds net) (hm : cur ∈ net) :
    selectByObjectId net cur.objectid = [cur] := by
  induction net with
  | nil => cases hm
  | cons a l ih =>
    have hu2 : a.objectid ∉ l.map (fun seg => seg.objectid) ∧
        (l.map (fun seg => seg.objectid)).Nodup := by
      rw [uniqueIds, List.map_cons, List.nodup_cons] at hu
      exact hu
    rcases List.mem_cons.mp hm with h | h
    · subst h
      show List.filter _ (cur :: l) = [cur]
      rw [List.filter_cons_of_pos (by simp)]
      have hnil : l.filter (fun seg => seg.objectid == cur.objectid) = [] := by
        apply List.filter_eq_nil_iff.mpr
        intro s hs hbeq
        exact hu2.1 (by
          simp only [beq_iff_eq] at hbeq
          rw [← hbeq]
          exact List.mem_map.mpr ⟨s, hs, rfl⟩)
      rw [hnil]
    · show List.filter _ (a :: l) = [cur]
      rw [List.filter_cons_of_neg (by
        simp only [beq_iff_eq]
        intro heq
        exact hu2.1 (heq ▸ List.mem_map.mpr ⟨cur, h, rfl⟩))]
      exact ih hu2.2 h

/-- Along a continuing chain the Strahler order never changes. -/
theorem chainFrom_last_order {net : List StreamSegment} :
    ∀ {ss : List StreamSegment} {cur : StreamSegment}, chainFrom net cur ss →
      (lastSeg cur ss).strahlerOr = cur.strahlerOr := by
  intro ss
  induction ss with
  | nil => intro cur _; rfl
  | cons d rest ih =>
    intro cur h
    simp only [chainFrom] at h
    obtain ⟨_, hord, hchain⟩ := h
    calc (lastSeg cur (d :: rest)).strahlerOr
        = (lastSeg d rest).strahlerOr := rfl
      _ = d.strahlerOr := ih hchain
      _ = cur.strahlerOr := hord

/-- The final segment of a chain starting inside the network is a row of
the network. -/
theorem chainFrom_last_mem {net : List StreamSegment} :
    ∀ {ss : List StreamSegment} {cur : StreamSegment}, cur ∈ net →
      chainFrom net cur ss → lastSeg cur ss ∈ net := by
  intro ss
  induction ss with
  | nil => intro cur hm _; exact hm
  | cons d rest ih =>
    intro cur _ h
    simp only [chainFrom] at h
    exact ih (stepSeg_mem h.1) h.2.2

/-- Soundness of the swim loop on a continuing chain: when a same-order
chain from the current segment meets a strictly higher-order successor,
the loop terminates with the first point of the chain's last segment and
adds exactly the chain's lengths to the running total. -/
theorem swim_reaches {net : List StreamSegment} {initOrd : Int}
    (hu : uniqueIds net) :
    ∀ (ss : List StreamSegment) (cur : StreamSegment) (visited : List Nat)
      (len : Int) (b : StreamSegment) (fuel : Nat),
      cur ∈ net → cur.strahlerOr = initOrd →
      visited.getLast? = some cur.objectid →
      chainFrom net cur ss →
      stepSeg net (lastSeg cur ss) = some b →
      initOrd < b.strahlerOr →
      ss.length + 1 ≤ fuel →
      swim net initOrd fuel cur visited len
        = FDPResult.ok (lastSeg cur ss).firstPoint (len + sumLen ss) := by
  intro ss
  induction ss with
  | nil =>
    intro cur visited len b fuel hmem hord hlast hchain hstep hgt hfuel
    obtain ⟨f, rfl⟩ : ∃ f, fuel = f + 1 := ⟨fuel - 1, by omega⟩
    simp only [lastSeg] at hstep ⊢
    simp only [swim, hstep]
    rw [if_neg (by omega), if_pos hgt, hlast]
    simp only [selectByObjectId_eq hu hmem, List.getLast?_singleton]
    simp [sumLen]
  | cons d rest ih =>
    intro cur visited len b fuel hmem hord hlast hchain hstep hgt hfuel
    simp only [chainFrom] at hchain
    obtain ⟨hstepd, hordd, hchain⟩ := hchain
    obtain ⟨f, rfl⟩ : ∃ f, fuel = f + 1 := ⟨fuel - 1, by omega⟩
    have hdmem : d ∈ net := stepSeg_mem hstepd
    have hdord : d.strahlerOr = initOrd := by rw [hordd, hord]
    simp only [swim, hstepd]
    rw [if_pos hdord]
    have hrec := ih d (visited ++ [d.objectid]) (len + d.shapeLength) b f hdmem hdord
      (by rw [List.getLast?_concat]) hchain
      (by simpa [lastSeg] using hstep) hgt (by simpa using Nat.lt_of_succ_le hfuel)
    rw [hrec]
    simp only [lastSeg]
    congr 1
    simp [sumLen]
    omega

/-- Characterisation of a successful swim: every coordinate the loop
returns is the first point of the last segment of a same-order chain whose
next successor has strictly greater order, and the reported total is the
sum of the chain's lengths. -/
theorem swim_ok_elim {net : List StreamSegment} {initOrd : Int}
    (hu : uniqueIds net) :
    ∀ (fuel : Nat) (cur : StreamSegment) (visited : List Nat) (len : Int)
      (c : Point) (l : Int),
      cur ∈ net → cur.strahlerOr = initOrd →
      visited.getLast? = some cur.objectid →
      swim net initOrd fuel cur visited len = FDPResult.ok c l →
      ∃ ss b, chainFrom net cur ss ∧
        stepSeg net (lastSeg cur ss) = some b ∧
        initOrd < b.strahlerOr ∧
        c = (lastSeg cur ss).firstPoint ∧
        l = len + sumLen ss := by
  intro fuel
  induction fuel with
  | zero =>
    intro cur visited len c l _ _ _ h
    exact absurd h (by simp [swim])
  | succ f ih =>
    intro cur visited len c l hmem hord hlast h
    simp only [swim] at h
    cases hstep : stepSeg net cur with
    | none =>
      simp only [hstep] at h
      exact FDPResult.noConfusion h
    | some d =>
      simp only [hstep] at h
      by_cases hd : d.strahlerOr = initOrd
      · rw [if_pos hd] at h
        obtain ⟨ss, b, hchain, hsb, hgt, hc, hl⟩ :=
          ih d (visited ++ [d.objectid]) (len + d.shapeLength) c l
            (stepSeg_mem hstep) hd (by rw [List.getLast?_concat]) h
        refine ⟨d :: ss, b, ?_, ?_, hgt, ?_, ?_⟩
        · simp only [chainFrom]
          exact ⟨hstep, by rw [hd, hord], hchain⟩
        · simpa [lastSeg] using hsb
        · simpa [lastSeg] using hc
        · simp only [sumLen, List.map_cons, List.sum_cons] at hl ⊢
          omega
      · rw [if_neg hd] at h
        by_cases hgt : d.strahlerOr > initOrd
        · rw [if_pos hgt, hlast] at h
          simp only [selectByObjectId_eq hu hmem, List.getLast?_singleton,
            FDPResult.ok.injEq] at h
          refine ⟨[], d, ?_, hstep, hgt, h.1.symm, ?_⟩
          · simp [chainFrom]
          · simp [sumLen, h.2.symm]
        · rw [if_neg hgt] at h
          simp at h

/-- Unfolding of the site loop when the site selection is empty: reading
the label raises IndexError and the run crashes. -/
theorem MainLoop_cons_none (intersects : Int → Site → StreamSegment → Bool)
    (sites : List Site) (stream_lyr : StreamLayer) (tolerance : Int)
    (fuel : Nat) (names : Nat → String) (s : Nat) (rest : List Nat)
    (i : Nat) (rows : List Row)
    (hh : (sites.filter (fun t => t.objectid == s)).head? = none) :
    MainLoop intersects sites stream_lyr tolerance fuel names (s :: rest) i rows
      = RunResult.crashed rows := by
  simp only [MainLoop]
  rw [hh]

/-- Unfolding of the site loop for one site whose selection has a first
row `t0`. -/
theorem MainLoop_cons_some (intersects : Int → Site → StreamSegment → Bool)
    (sites : List Site) (stream_lyr : StreamLayer) (tolerance : Int)
    (fuel : Nat) (names : Nat → String) (s : Nat) (rest : List Nat)
    (i : Nat) (rows : List Row) (t0 : Site)
    (hh : (sites.filter (fun t => t.objectid == s)).head? = some t0) :
    MainLoop intersects sites stream_lyr tolerance fuel names (s :: rest) i rows
      = if (sites.filter (fun t => t.objectid == s)).length = 1 then
          match FindDownstreamPoint intersects
              ⟨names i, sites.filter (fun t => t.objectid == s)⟩ stream_lyr
              tolerance fuel with
          | FDPResult.ok c _ =>
            MainLoop intersects sites stream_lyr tolerance fuel names rest (i + 1)
              (rows ++ [⟨some c, sanitize t0.label⟩])
          | FDPResult.fail _ =>
            MainLoop intersects sites stream_lyr tolerance fuel names rest (i + 1)
              (rows ++ [⟨none, sanitize t0.label⟩])
          | FDPResult.crash => RunResult.crashed rows
          | FDPResult.outOfFuel => RunResult.fuelOut rows
        else RunResult.abortedSite rows := by
  simp only [MainLoop]
  rw [hh]

/-- The site loop never produces the validation-failure outcome: once site
iteration has begun, the output feature class exists. -/
theorem MainLoop_ne_noOutput (intersects : Int → Site → StreamSegment → Bool)
    (sites : List Site) (stream_lyr : StreamLayer) (tolerance : Int)
    (fuel : Nat) (names : Nat → String) :
    ∀ (l : List Nat) (i : Nat) (rows : List Row),
      MainLoop intersects sites stream_lyr tolerance fuel names l i rows
        ≠ RunResult.noOutput := by
  intro l
  induction l with
  | nil =>
    intro i rows h
    exact absurd h (by simp [MainLoop])
  | cons s rest ih =>
    intro i rows
    simp only [MainLoop]
    split
    · exact fun h => RunResult.noConfusion h
    · split
      · split
        · exact ih _ _
        · exact ih _ _
        · exact fun h => RunResult.noConfusion h
        · exact fun h => RunResult.noConfusion h
      · exact fun h => RunResult.noConfusion h

/-- Rows already inserted in the output feature class are never removed or
rewritten by later site iterations: whatever the loop's outcome, the final
row list extends the rows written so far. -/
theorem MainLoop_rows_extend (intersects : Int → Site → StreamSegment → Bool)
    (sites : List Site) (stream_lyr : StreamLayer) (tolerance : Int)
    (fuel : Nat) (names : Nat → String) :
    ∀ (l : List Nat) (i : Nat) (rows : List Row),
      ∃ tl, rowsOf (MainLoop intersects sites stream_lyr tolerance fuel names l i rows)
        = rows ++ tl := by
  intro l
  induction l with
  | nil =>
    intro i rows
    exact ⟨[], by simp [MainLoop, rowsOf]⟩
  | cons s rest ih =>
    intro i rows
    cases hh : (sites.filter (fun t => t.objectid == s)).head? with
    | none =>
      rw [MainLoop_cons_none intersects sites stream_lyr tolerance fuel names
        s rest i rows hh]
      exact ⟨[], by simp [rowsOf]⟩
    | some t0 =>
      rw [MainLoop_cons_some intersects sites stream_lyr tolerance fuel names
        s rest i rows t0 hh]
      by_cases hlen : (sites.filter (fun t => t.objectid == s)).length = 1
      · rw [if_pos hlen]
        split
        · next c _ _ =>
          obtain ⟨tl, htl⟩ := ih (i + 1) (rows ++ [⟨some c, sanitize t0.label⟩])
          exact ⟨[⟨some c, sanitize t0.label⟩] ++ tl, by rw [htl, List.append_assoc]⟩
        · next _ _ =>
          obtain ⟨tl, htl⟩ := ih (i + 1) (rows ++ [⟨none, sanitize t0.label⟩])
          exact ⟨[⟨none, sanitize t0.label⟩] ++ tl, by rw [htl, List.append_assoc]⟩
        · exact ⟨[], by simp [rowsOf]⟩
        · exact ⟨[], by simp [rowsOf]⟩
      · rw [if_neg hlen]
        exact ⟨[], by simp [rowsOf]⟩

/-- The trace reads only the rows of the layers it is given, never their
randomly generated names. -/
theorem FindDownstreamPoint_lyr_indep (intersects : Int → Site → StreamSegment → Bool)
    (a a' b b' : String) (rows : List Site) (src : List StreamSegment)
    (tolerance : Int) (fuel : Nat) :
    FindDownstreamPoint intersects ⟨a, rows⟩ ⟨b, src⟩ tolerance fuel
      = FindDownstreamPoint intersects ⟨a', rows⟩ ⟨b', src⟩ tolerance fuel := rfl

/-- The site loop's outcome does not depend on the random layer-name
supply or on the stream layer's name. -/
theorem MainLoop_lyr_indep (intersects : Int → Site → StreamSegment → Bool)
    (sites : List Site) (b b' : String) (src : List StreamSegment)
    (tolerance : Int) (fuel : Nat) (names names' : Nat → String) :
    ∀ (l : List Nat) (i : Nat) (rows : List Row),
      MainLoop intersects sites ⟨b, src⟩ tolerance fuel names l i rows
        = MainLoop intersects sites ⟨b', src⟩ tolerance fuel names' l i rows := by
  intro l
  induction l with
  | nil => intro i rows; rfl
  | cons s rest ih =>
    intro i rows
    cases hh : (sites.filter (fun t => t.objectid == s)).head? with
    | none =>
      rw [MainLoop_cons_none intersects sites ⟨b, src⟩ tolerance fuel names
        s rest i rows hh]
      rw [MainLoop_cons_none intersects sites ⟨b', src⟩ tolerance fuel names'
        s rest i rows hh]
    | some t0 =>
      rw [MainLoop_cons_some intersects sites ⟨b, src⟩ tolerance fuel names
        s rest i rows t0 hh]
      rw [MainLoop_cons_some intersects sites ⟨b', src⟩ tolerance fuel names'
        s rest i rows t0 hh]
      rw [FindDownstreamPoint_lyr_indep intersects (names i) (names' i) b b'
        (sites.filter (fun t => t.objectid == s)) src tolerance fuel]
      by_cases hlen : (sites.filter (fun t => t.objectid == s)).length = 1
      · rw [if_pos hlen, if_pos hlen]
        cases FindDownstreamPoint intersects
            ⟨names' i, sites.filter (fun t => t.objectid == s)⟩ ⟨b', src⟩
            tolerance fuel with
        | ok c len => exact ih _ _
        | fail e => exact ih _ _
        | crash => rfl
        | outOfFuel => rfl
      · rw [if_neg hlen, if_neg hlen]

/-- C3: on a chain with Strahler orders [2, 1] the trace does fail with
the order-inversion error and produces no coordinate, but `Main` does not
skip the site: it ignores the False return of `FindDownstreamPoint` and
passes it to `insertRow` as the geometry, so a (null-geometry) output row
is still written for the failed site. -/
theorem C3_order_inversion_row :
    FindDownstreamPoint interFirst siteL1 streamL3 1 10
        = FDPResult.fail TraceErr.orderInversion
      ∧ Main interFirst goodFields [site1] net3 1 10 nm
        = RunResult.completed [⟨none, "s_one"⟩] :=
  ⟨by decide, by decide⟩

/-- C4: resolution fails whenever zero segments or two segments intersect
the site's tolerance buffer (and succeeds only on a unique match), but the
failed site is not skipped: `Main` still writes an output row carrying the
False return of `FindDownstreamPoint` as its geometry. -/
theorem C4_resolution_gate :
    FindDownstreamPoint interNone siteL1 streamL3 1 10
        = FDPResult.fail TraceErr.ambiguousOrMissing
      ∧ FindDownstreamPoint interAll siteL1 streamL3 1 10
        = FDPResult.fail TraceErr.ambiguousOrMissing
      ∧ Main interNone goodFields [site1] net3 1 10 nm
        = RunResult.completed [⟨none, "s_one"⟩] :=
  ⟨by decide, by decide, by decide⟩

/-- C5 counterexample: at a node with two downstream segments the
implementation surfaces no ambiguous-successor error: the trace silently
continues with the last matching row (here the higher-order row 3) and
terminates normally with a coordinate. -/
theorem C5_counterexample :
    (selectByFromNode net5 segA5.toNode).length = 2
      ∧ swim net5 2 10 segA5 [1] 0 = FDPResult.ok pt1 0 :=
  ⟨by decide, by decide⟩

/-- C5 (amended): when the successor lookup yields zero matches the trace
fails with an uncaught error (field access on the empty attribute
dictionary); when it yields one or more matches — ambiguous or not — the
loop silently continues with the last matching row; no AmbiguousSuccessor
error is ever surfaced. -/
theorem C5_successor_selection (net : List StreamSegment) (initOrd : Int)
    (cur : StreamSegment) (fuel : Nat) (visited : List Nat) (len : Int) :
    (selectByFromNode net cur.toNode = [] →
      swim net initOrd (fuel + 1) cur visited len = FDPResult.crash)
      ∧ (∀ t, (selectByFromNode net cur.toNode).getLast? = some t →
          t.strahlerOr = initOrd →
          swim net initOrd (fuel + 1) cur visited len
            = swim net initOrd fuel t (visited ++ [t.objectid])
                (len + t.shapeLength)) := by
  constructor
  · intro h
    have hstep : stepSeg net cur = none := by
      show (selectByFromNode net cur.toNode).getLast? = none
      rw [h]
      rfl
    simp only [swim, hstep]
  · intro t ht hord
    have hstep : stepSeg net cur = some t := ht
    simp only [swim, hstep]
    rw [if_pos hord]

/-- C5 witness: the amended successor rule at concrete inputs — the trace
crashes at the dead-end node of `net6`, and at the two-successor node of
`net5b` it continues with the last matching row. -/
theorem C5_witness :
    swim net6 2 1 segA6 [1] 0 = FDPResult.crash
      ∧ swim net5b 2 3 segA5 [1] 0 = swim net5b 2 2 segC5 ([1] ++ [3]) (0 + 7) :=
  ⟨(C5_successor_selection net6 2 segA6 0 [1] 0).1 (by decide),
   (C5_successor_selection net5b 2 segA5 2 [1] 0).2 segC5 (by decide) (by decide)⟩

/-- C6 counterexample: schema validation is not the only run-fatal
condition: with a valid schema, a site whose trace reaches a node with no
downstream segment kills the whole run (uncaught lookup error), leaving
the second site unprocessed and no row written. -/
theorem C6_counterexample :
    ValidateInputStreams goodFields = true
      ∧ Main interFirst goodFields [site1, ⟨2, "b"⟩] net6 1 10 nm
        = RunResult.crashed [] :=
  ⟨by decide, by decide⟩

/-- C6 (amended): a per-site failure returned as False (failed stream
resolution or order inversion) never aborts processing of subsequent sites
— the loop continues with the remaining sites after inserting a row for
the failed one — and rows already written are only ever extended, never
modified; but besides schema-validation failure, a trace that crashes on a
missing successor also terminates the whole run at that site. -/
theorem C6_per_site_isolation
    (intersects : Int → Site → StreamSegment → Bool) (sites : List Site)
    (stream_lyr : StreamLayer) (tolerance : Int) (fuel : Nat)
    (names : Nat → String) :
    (∀ s rest i rows t0 e,
      (sites.filter (fun t => t.objectid == s)).head? = some t0 →
      (sites.filter (fun t => t.objectid == s)).length = 1 →
      FindDownstreamPoint intersects
          ⟨names i, sites.filter (fun t => t.objectid == s)⟩ stream_lyr
          tolerance fuel = FDPResult.fail e →
      MainLoop intersects sites stream_lyr tolerance fuel names (s :: rest) i rows
        = MainLoop intersects sites stream_lyr tolerance fuel names rest (i + 1)
            (rows ++ [⟨none, sanitize t0.label⟩]))
      ∧ (∀ l i rows, ∃ tl,
          rowsOf (MainLoop intersects sites stream_lyr tolerance fuel names l i rows)
            = rows ++ tl)
      ∧ (∀ s rest i rows t0,
          (sites.filter (fun t => t.objectid == s)).head? = some t0 →
          (sites.filter (fun t => t.objectid == s)).length = 1 →
          FindDownstreamPoint intersects
              ⟨names i, sites.filter (fun t => t.objectid == s)⟩ stream_lyr
              tolerance fuel = FDPResult.crash →
          MainLoop intersects sites stream_lyr tolerance fuel names (s :: rest) i rows
            = RunResult.crashed rows) := by
  refine ⟨?_, MainLoop_rows_extend intersects sites stream_lyr tolerance fuel names, ?_⟩
  · intro s rest i rows t0 e hh hlen hf
    rw [MainLoop_cons_some intersects sites stream_lyr tolerance fuel names
      s rest i rows t0 hh]
    rw [if_pos hlen, hf]
  · intro s rest i rows t0 hh hlen hf
    rw [MainLoop_cons_some intersects sites stream_lyr tolerance fuel names
      s rest i rows t0 hh]
    rw [if_pos hlen, hf]

/-- C6 witness: the isolation statement at concrete inputs — a failed
trace for site 1 (order-inverted network) continues with the next site id
after appending that site's row; the rows written so far are preserved as
a prefix; and a crashing trace (dead-end network) terminates the run
keeping the rows written so far. -/
theorem C6_witness :
    (MainLoop interFirst [site1] streamL3 1 10 nm [1, 2] 1 []
        = MainLoop interFirst [site1] streamL3 1 10 nm [2] 2 [⟨none, "s_one"⟩])
      ∧ (∃ tl,
          rowsOf (MainLoop interFirst [site1] streamL3 1 10 nm [1] 1
            [⟨some pt1, "prev"⟩]) = [⟨some pt1, "prev"⟩] ++ tl)
      ∧ (MainLoop interFirst [site1] streamL6 1 10 nm [1] 1 [⟨some pt1, "prev"⟩]
          = RunResult.crashed [⟨some pt1, "prev"⟩]) := by
  refine ⟨?_, ?_, ?_⟩
  · have h := (C6_per_site_isolation interFirst [site1] streamL3 1 10 nm).1
      1 [2] 1 [] site1 TraceErr.orderInversion (by decide) (by decide) (by decide)
    rw [h]
    decide
  · exact (C6_per_site_isolation interFirst [site1] streamL3 1 10 nm).2.1
      [1] 1 [⟨some pt1, "prev"⟩]
  · exact (C6_per_site_isolation interFirst [site1] streamL6 1 10 nm).2.2
      1 [] 1 [⟨some pt1, "prev"⟩] site1 (by decide) (by decide) (by decide)

/-- C7: schema validation passes exactly when every required field
(identifier, Strahler order, from-node, to-node) is present; when it
fails, `Main` aborts before any site is processed and no output collection
is created (`noOutput`); when it passes, the run always gets past output
creation — every possible outcome carries the created output collection. -/
theorem C7_schema_validation (intersects : Int → Site → StreamSegment → Bool)
    (fields : List String) (sites : List Site) (streams : List StreamSegment)
    (tolerance : Int) (fuel : Nat) (names : Nat → String) :
    (ValidateInputStreams fields = true ↔ ∀ f ∈ req_fields, f ∈ fields)
      ∧ (ValidateInputStreams fields = false →
          Main intersects fields sites streams tolerance fuel names
            = RunResult.noOutput)
      ∧ (ValidateInputStreams fields = true →
          Main intersects fields sites streams tolerance fuel names
            ≠ RunResult.noOutput) := by
  refine ⟨?_, ?_, ?_⟩
  · simp [ValidateInputStreams, List.all_eq_true, List.elem_iff]
  · intro hv
    simp only [Main]
    rw [if_neg (by simp [hv])]
  · intro hv
    simp only [Main]
    rw [if_pos hv]
    exact MainLoop_ne_noOutput intersects sites ⟨names 0, streams⟩ tolerance fuel
      names (sites.map (fun t => t.objectid)) 1 []

/-- C7 witness: the validation gate at concrete inputs — a field list
missing `StrahlerOr` yields no output at all, while a complete field list
gets past output creation. -/
theorem C7_witness :
    Main interFirst badFields [site1] net4 1 10 nm = RunResult.noOutput
      ∧ Main interFirst goodFields [site1] net4 1 10 nm ≠ RunResult.noOutput :=
  ⟨(C7_schema_validation interFirst badFields [site1] net4 1 10 nm).2.1 (by decide),
   (C7_schema_validation interFirst goodFields [site1] net4 1 10 nm).2.2 (by decide)⟩

/-- C8: when the very first successor of the uniquely resolved starting
segment already has strictly higher Strahler order, the trace terminates
after zero continuing hops: the cumulative length is 0 and the returned
coordinate is the starting point of the original starting segment
itself. -/
theorem C8_immediate_boundary (intersects : Int → Site → StreamSegment → Bool)
    (site_lyr : SiteLayer) (stream_lyr : StreamLayer) (tolerance : Int)
    (fuel : Nat) (start b : StreamSegment)
    (hu : uniqueIds stream_lyr.src)
    (hsel : stream_lyr.src.filter
      (fun seg => site_lyr.rows.any (fun t => intersects tolerance t seg)) = [start])
    (hb : stepSeg stream_lyr.src start = some b)
    (hgt : start.strahlerOr < b.strahlerOr) :
    FindDownstreamPoint intersects site_lyr stream_lyr tolerance (fuel + 1)
      = FDPResult.ok start.firstPoint 0 := by
  have hmem : start ∈ stream_lyr.src := by
    apply List.mem_of_mem_filter (p := fun seg =>
      site_lyr.rows.any (fun t => intersects tolerance t seg))
    rw [hsel]
    exact List.mem_singleton_self start
  simp only [FindDownstreamPoint]
  rw [hsel]
  rw [if_pos (by simp)]
  simp only [DictionaryOfLayerFeatures, List.getLast?_singleton]
  have h := swim_reaches hu [] start [start.objectid] 0 b (fuel + 1) hmem rfl
    (by simp) trivial hb hgt (by simp)
  simp only [lastSeg, sumLen] at h
  simpa using h

/-- C8 witness: the zero-hop boundary case on the concrete chain with
orders [2, 3]: coordinate is the start point of the starting segment and
the length is 0. -/
theorem C8_witness :
    FindDownstreamPoint interFirst siteL1 streamL8 1 10
      = FDPResult.ok pt1 0 :=
  C8_immediate_boundary interFirst siteL1 streamL8 1 9 segA8 segB8
    (by unfold uniqueIds; decide) (by decide) (by decide) (by decide)

/-- C9: the trace loop has no built-in maximum-hop bound and terminates
exactly by meeting a segment of different order: on a network where every
segment's successor exists and has the initial order (e.g. a same-order
cycle) the loop exhausts any amount of fuel without producing a result,
while a chain reaching a successor whose order differs from the initial
order terminates within the chain's length plus one iterations. -/
theorem C9_no_hop_bound (net : List StreamSegment) (initOrd : Int) :
    (∀ cur, cur ∈ net →
      (∀ s, s ∈ net → ∃ t, stepSeg net s = some t ∧ t.strahlerOr = initOrd) →
      ∀ fuel visited len,
        swim net initOrd fuel cur visited len = FDPResult.outOfFuel)
      ∧ (∀ cur ss b visited len, cur.strahlerOr = initOrd →
          chainFrom net cur ss →
          stepSeg net (lastSeg cur ss) = some b →
          b.strahlerOr ≠ initOrd →
          swim net initOrd (ss.length + 1) cur visited len
            ≠ FDPResult.outOfFuel) := by
  constructor
  · intro cur hmem H
    suffices h : ∀ fuel cur, cur ∈ net → ∀ visited len,
        swim net initOrd fuel cur visited len = FDPResult.outOfFuel from
      fun fuel visited len => h fuel cur hmem visited len
    intro fuel
    induction fuel with
    | zero => intro cur _ visited len; rfl
    | succ f ih =>
      intro cur hcur visited len
      obtain ⟨t, hstep, hord⟩ := H cur hcur
      simp only [swim, hstep]
      rw [if_pos hord]
      exact ih t (stepSeg_mem hstep) _ _
  · suffices h : ∀ ss cur, cur.strahlerOr = initOrd → chainFrom net cur ss →
        ∀ b, stepSeg net (lastSeg cur ss) = some b → b.strahlerOr ≠ initOrd →
        ∀ visited len,
          swim net initOrd (ss.length + 1) cur visited len
            ≠ FDPResult.outOfFuel from
      fun cur ss b visited len hord hchain hb hne =>
        h ss cur hord hchain b hb hne visited len
    intro ss
    induction ss with
    | nil =>
      intro cur hord hchain b hb hne visited len
      simp only [lastSeg] at hb
      simp only [List.length_nil, swim, hb]
      rw [if_neg hne]
      by_cases hgt : b.strahlerOr > initOrd
      · rw [if_pos hgt]
        intro hcon
        split at hcon
        · exact FDPResult.noConfusion hcon
        · split at hcon
          · exact FDPResult.noConfusion hcon
          · exact FDPResult.noConfusion hcon
      · rw [if_neg hgt]
        intro hcon
        exact FDPResult.noConfusion hcon
    | cons d rest ih =>
      intro cur hord hchain b hb hne visited len
      simp only [chainFrom] at hchain
      obtain ⟨hstepd, hordd, hchain⟩ := hchain
      simp only [List.length_cons]
      simp only [swim, hstepd]
      rw [if_pos (by rw [hordd, hord])]
      exact ih d (by rw [hordd, hord]) hchain b (by simpa [lastSeg] using hb)
        hne _ _

/-- C9 witness: on the one-segment same-order cycle the trace exhausts a
concrete fuel of 50 with no result, while the chain with orders [2, 3]
terminates after its first iteration. -/
theorem C9_witness :
    swim net9 2 50 segA9 [1] 0 = FDPResult.outOfFuel
      ∧ swim net8 2 1 segA8 [1] 0 ≠ FDPResult.outOfFuel := by
  constructor
  · exact (C9_no_hop_bound net9 2).1 segA9 (by decide)
      (fun s hs => by
        have hseq : s = segA9 := List.mem_singleton.mp hs
        rw [hseq]
        exact ⟨segA9, by decide, by decide⟩) 50 [1] 0
  · exact (C9_no_hop_bound net8 2).2 segA8 [] segB8 [1] 0 (by decide)
      trivial (by decide) (by decide)

/-- C10: the run's persisted outcome — every output coordinate and site
label — does not depend on the randomly generated temporary layer names:
two runs over the same stream network, site set, tolerance and fuel that
differ only in their random name draws produce identical results, so
re-running the unchanged program reproduces its output bit for bit. -/
theorem C10_name_supply_independence
    (intersects : Int → Site → StreamSegment → Bool) (fields : List String)
    (sites : List Site) (streams : List StreamSegment) (tolerance : Int)
    (fuel : Nat) (names names' : Nat → String) :
    Main intersects fields sites streams tolerance fuel names
      = Main intersects fields sites streams tolerance fuel names' := by
  simp only [Main]
  by_cases hv : ValidateInputStreams fields = true
  · rw [if_pos hv, if_pos hv]
    exact MainLoop_lyr_indep intersects sites (names 0) (names' 0) streams
      tolerance fuel names names' (sites.map (fun t => t.objectid)) 1 []
  · rw [if_neg hv, if_neg hv]

/-- C1: whenever the trace returns a coordinate, it ended because the next
downstream segment's Strahler order strictly exceeded the initial order,
and the returned coordinate is the starting point (`firstPoint`) of the
last same-order segment visited — the final element of the visited
sequence, re-selected by the one-segment backtrack — not the downstream
end of that segment and not an endpoint of the higher-order boundary
segment. -/
theorem C1_backtracked_start_point
    (intersects : Int → Site → StreamSegment → Bool) (site_lyr : SiteLayer)
    (stream_lyr : StreamLayer) (tolerance : Int) (fuel : Nat)
    (c : Point) (l : Int)
    (hu : uniqueIds stream_lyr.src)
    (hok : FindDownstreamPoint intersects site_lyr stream_lyr tolerance fuel
      = FDPResult.ok c l) :
    ∃ start ss b,
      stream_lyr.src.filter
        (fun seg => site_lyr.rows.any (fun t => intersects tolerance t seg))
        = [start] ∧
      chainFrom stream_lyr.src start ss ∧
      lastSeg start ss ∈ stream_lyr.src ∧
      (lastSeg start ss).strahlerOr = start.strahlerOr ∧
      stepSeg stream_lyr.src (lastSeg start ss) = some b ∧
      start.strahlerOr < b.strahlerOr ∧
      c = (lastSeg start ss).firstPoint ∧
      ((lastSeg start ss).lastPoint ≠ (lastSeg start ss).firstPoint →
        c ≠ (lastSeg start ss).lastPoint) ∧
      (b.firstPoint ≠ (lastSeg start ss).firstPoint → c ≠ b.firstPoint) ∧
      (b.lastPoint ≠ (lastSeg start ss).firstPoint → c ≠ b.lastPoint) := by
  simp only [FindDownstreamPoint] at hok
  by_cases hlen : (stream_lyr.src.filter
      (fun seg => site_lyr.rows.any (fun t => intersects tolerance t seg))).length = 1
  · obtain ⟨start, hsel⟩ := List.length_eq_one.mp hlen
    rw [if_pos hlen, hsel] at hok
    simp only [DictionaryOfLayerFeatures, List.getLast?_singleton] at hok
    have hmem : start ∈ stream_lyr.src := by
      apply List.mem_of_mem_filter (p := fun seg =>
        site_lyr.rows.any (fun t => intersects tolerance t seg))
      rw [hsel]
      exact List.mem_singleton_self start
    obtain ⟨ss, b, hchain, hsb, hgt, hc, _⟩ :=
      swim_ok_elim hu fuel start [start.objectid] 0 c l hmem rfl (by simp) hok
    refine ⟨start, ss, b, hsel, hchain, chainFrom_last_mem hmem hchain,
      chainFrom_last_order hchain, hsb, hgt, hc, ?_, ?_, ?_⟩
    · intro hne
      rw [hc]
      exact fun hbad => hne hbad.symm
    · intro hne
      rw [hc]
      exact fun hbad => hne hbad.symm
    · intro hne
      rw [hc]
      exact fun hbad => hne hbad.symm
  · rw [if_neg hlen] at hok
    exact absurd hok (by simp)

/-- C1 witness: the backtrack property instantiated on the concrete
4-segment chain, where the trace returns the start point of the third
segment. -/
theorem C1_witness :
    ∃ start ss b,
      streamL4.src.filter
        (fun seg => siteL1.rows.any (fun t => interFirst 1 t seg)) = [start] ∧
      chainFrom streamL4.src start ss ∧
      lastSeg start ss ∈ streamL4.src ∧
      (lastSeg start ss).strahlerOr = start.strahlerOr ∧
      stepSeg streamL4.src (lastSeg start ss) = some b ∧
      start.strahlerOr < b.strahlerOr ∧
      pt3 = (lastSeg start ss).firstPoint ∧
      ((lastSeg start ss).lastPoint ≠ (lastSeg start ss).firstPoint →
        pt3 ≠ (lastSeg start ss).lastPoint) ∧
      (b.firstPoint ≠ (lastSeg start ss).firstPoint → pt3 ≠ b.firstPoint) ∧
      (b.lastPoint ≠ (lastSeg start ss).firstPoint → pt3 ≠ b.lastPoint) :=
  C1_backtracked_start_point interFirst siteL1 streamL4 1 10 pt3 50
    (by unfold uniqueIds; decide) (by decide)

/-- C2: when the uniquely resolved starting segment heads a same-order
chain whose last segment feeds a strictly higher-order segment, the trace
returns the last chain segment's start point together with a cumulative
length that is exactly the sum of the lengths of the segments visited
after the starting segment: the starting segment contributes 0 and the
boundary segment's length is excluded. -/
theorem C2_cumulative_length
    (intersects : Int → Site → StreamSegment → Bool) (site_lyr : SiteLayer)
    (stream_lyr : StreamLayer) (tolerance : Int) (fuel : Nat)
    (start b : StreamSegment) (ss : List StreamSegment)
    (hu : uniqueIds stream_lyr.src)
    (hsel : stream_lyr.src.filter
      (fun seg => site_lyr.rows.any (fun t => intersects tolerance t seg))
      = [start])
    (hchain : chainFrom stream_lyr.src start ss)
    (hb : stepSeg stream_lyr.src (lastSeg start ss) = some b)
    (hgt : start.strahlerOr < b.strahlerOr)
    (hfuel : ss.length + 1 ≤ fuel) :
    FindDownstreamPoint intersects site_lyr stream_lyr tolerance fuel
      = FDPResult.ok (lastSeg start ss).firstPoint (sumLen ss) := by
  have hmem : start ∈ stream_lyr.src := by
    apply List.mem_of_mem_filter (p := fun seg =>
      site_lyr.rows.any (fun t => intersects tolerance t seg))
    rw [hsel]
    exact List.mem_singleton_self start
  simp only [FindDownstreamPoint]
  rw [hsel]
  rw [if_pos (by simp)]
  simp only [DictionaryOfLayerFeatures, List.getLast?_singleton]
  have h := swim_reaches hu ss start [start.objectid] 0 b fuel hmem rfl
    (by simp) hchain hb hgt hfuel
  simpa using h

/-- C2 witness: the 4-segment chain with orders [2, 2, 2, 3] and lengths
[10, 20, 30, 5]: cumulative length is 20 + 30 = 50 and the coordinate is
the start point of the third segment. -/
theorem C2_witness :
    FindDownstreamPoint interFirst siteL1 streamL4 1 10
      = FDPResult.ok pt3 50 := by
  have h := C2_cumulative_length interFirst siteL1 streamL4 1 10 seg41 seg44
    [seg42, seg43] (by unfold uniqueIds; decide) (by decide)
    (by simp only [chainFrom]; exact ⟨by decide, by decide, by decide, by decide, trivial⟩)
    (by decide) (by decide) (by decide)
  rw [h]
  decide
